import Mathlib

/-!
Shallow embedding of `textual_autocomplete/_autocomplete.py` (the
`textual-autocomplete` widget): the `Candidate` data model, the
`DropdownRender` renderer (`__rich_console__` / `__rich_measure__`),
and the `AutoComplete` widget's `_sync_state`, `render`, watch-callback
and `on_mount` logic, together with theorems settling the spec claims.
-/

namespace TextualAutocomplete

/-- Embeds the `Candidate` dataclass: one dropdown row with up to three
columns and optional explicit highlight ranges (half-open index pairs
into `main`).  Defaults are the dataclass defaults. -/
structure Candidate where
  main : String := ""
  left_meta : String := ""
  right_meta : String := ""
  highlight_ranges : List (Nat × Nat) := []
deriving DecidableEq, Repr

/-- One styled region of a rich `Text`: rich's `Span(start, end, style)`.
The field `stop` stands for rich's `end` (a Lean keyword). -/
structure Span where
  start : Nat
  stop : Nat
  style : String
deriving DecidableEq, Repr

/-- A rich `Text` value reduced to what the renderer produces: the plain
string and its list of styled spans. -/
structure StyledText where
  plain : String
  spans : List Span
deriving DecidableEq, Repr

/-- Embeds the `DropdownRender` object as constructed by
`DropdownRender.__init__`: it stores `filter`, `matches` and
`highlight_index` (the `component_styles` argument is accepted by the
source constructor but never stored, so it has no counterpart here). -/
structure DropdownRender where
  filter : String
  matchList : List Candidate
  highlight_index : Nat
deriving DecidableEq, Repr

/-- Models rich's `Text.highlight_words([word], style)` span search for a
single literal word (the only way the source calls it): `re.finditer` over
the escaped word finds the non-overlapping occurrences of `word` scanning
left to right, each search resuming at the end of the previous match, and
zero-width matches are skipped by the `end > start` guard (so an empty
word produces no spans).  `i` is the absolute index of the head of `s` in
the original string; `skip` counts the positions still inside the most
recent match, over which no new search starts (this realises resuming at
the match's end while recursing one character at a time).  Returned pairs
are absolute half-open ranges; the top-level call has `skip = 0`. -/
def findSpans (word : List Char) : List Char → Nat → Nat → List (Nat × Nat)
  | [], _, _ => []
  | _ :: rest, i, skip + 1 => findSpans word rest (i + 1) skip
  | c :: rest, i, 0 =>
    if word ≠ [] ∧ word.isPrefixOf (c :: rest) then
      (i, i + word.length) :: findSpans word rest (i + 1) (word.length - 1)
    else
      findSpans word rest (i + 1) 0

/-- Embeds the per-candidate body of `DropdownRender.__rich_console__`:
`candidate_text = Text(match.main)` followed by
`candidate_text.highlight_words([self.filter], style="on yellow")`.
Note the source uses only `match.main` and the filter: `highlight_ranges`,
`left_meta` and `right_meta` play no part. -/
def renderLine (filter : String) (c : Candidate) : StyledText :=
  { plain := c.main
    spans := (findSpans filter.data c.main.data 0 0).map
      (fun sp => { start := sp.1, stop := sp.2, style := "on yellow" }) }

/-- The list of styled lines built by the loop in
`DropdownRender.__rich_console__`, one per match, in order. -/
def renderLines (d : DropdownRender) : List StyledText :=
  d.matchList.map (renderLine d.filter)

/-- The plain text of `Text("\n").join(matches).append("\n")`: the match
lines joined by a newline, with a trailing newline appended. -/
def richConsolePlain (d : DropdownRender) : String :=
  String.intercalate "\n" ((renderLines d).map StyledText.plain) ++ "\n"

/-- Models rich's `Measurement` named tuple `(minimum, maximum)`. -/
structure Measurement where
  minimum : Nat
  maximum : Nat
deriving DecidableEq, Repr

/-- Models `Measurement.get(console, options, s)[1]` for a plain string
`s`: its cell width, one column per character for the character sets
considered here. -/
def strWidth (s : String) : Nat :=
  s.length

/-- The summand measured for one match in `DropdownRender.__rich_measure__`:
`get(match.left_meta)[1] + get(match.main)[1] + get(match.right_meta)[1]`. -/
def combinedWidth (c : Candidate) : Nat :=
  strWidth c.left_meta + strWidth c.main + strWidth c.right_meta

/-- Embeds `DropdownRender.__rich_measure__`: a loop folding
`maximum = max(combined, maximum)` from `0` over the matches, returning
`Measurement(10, maximum)`. -/
def richMeasure (d : DropdownRender) : Measurement :=
  { minimum := 10
    maximum := d.matchList.foldl (fun mx c => max (combinedWidth c) mx) 0 }

/-- Written from the spec's words for comparison with `richMeasure`:
the maximum, across all matches, of the combined three-column width. -/
def maxCombined : List Candidate → Nat
  | [] => 0
  | c :: cs => max (combinedWidth c) (maxCombined cs)

/-- The single width a consumer of the measurement resolves to when space
allows: the larger of the reported minimum and reported maximum. -/
def measuredWidth (d : DropdownRender) : Nat :=
  max (richMeasure d).minimum (richMeasure d).maximum

/-- The linked `Input` widget's reactive state: its `value` and
`cursor_position`. -/
structure InputState where
  value : String
  cursor_position : Int
deriving DecidableEq, Repr

/-- The `AutoComplete` widget's own mutable state: `_matches` and the
`display` flag (visibility). -/
structure WidgetState where
  matchList : List Candidate
  display : Bool
deriving DecidableEq, Repr

/-- Embeds `AutoComplete._sync_state(value, cursor_position)`:
`_matches = _get_results(value, cursor_position)` followed by
`display = len(_matches) > 0 and value != ""`.  The prior widget state is
not read, so the result depends only on the provider and the arguments. -/
def syncState (f : String → Int → List Candidate) (v : String) (c : Int) :
    WidgetState :=
  let ms := f v c
  { matchList := ms
    display := decide (ms.length > 0) && decide (v ≠ "") }

/-- The trace of provider invocations `_sync_state` performs: the single
call `_get_results(value, cursor_position)` on its first line, paired with
the resulting widget state. -/
def syncTraced (f : String → Int → List Candidate) (v : String) (c : Int) :
    WidgetState × List (String × Int) :=
  (syncState f v c, [(v, c)])

/-- A sequence of `_sync_state` calls applied in order. -/
def runSyncs (f : String → Int → List Candidate) (st : WidgetState) :
    List (String × Int) → WidgetState
  | [] => st
  | (v, c) :: rest => runSyncs f (syncState f v c) rest

/-- A change notification pushed by the linked input's reactive
attributes. -/
inductive InputEvent where
  | valueChanged (v : String)
  | cursorChanged (c : Int)
deriving DecidableEq, Repr

/-- Embeds the two watch callbacks `_input_value_changed` and
`_input_cursor_position_changed`: the reactive attribute has already taken
its new value when the callback runs, and each callback invokes
`_sync_state` with the new value of one attribute and the input widget's
current value of the other. -/
def applyEvent (f : String → Int → List Candidate)
    (inp : InputState) (_w : WidgetState) :
    InputEvent → InputState × WidgetState
  | .valueChanged v =>
    let inp2 : InputState := { inp with value := v }
    (inp2, syncState f v inp2.cursor_position)
  | .cursorChanged c =>
    let inp2 : InputState := { inp with cursor_position := c }
    (inp2, syncState f inp2.value c)

/-- Embeds `AutoComplete.render`: builds a `DropdownRender` with
`filter` the linked input's current `value`, `matches` the widget's
`_matches`, and `highlight_index` always `0`. -/
def render (inp : InputState) (w : WidgetState) : DropdownRender :=
  { filter := inp.value
    matchList := w.matchList
    highlight_index := 0 }

/-- Embeds `_sync_state` against a provider that may raise: Python
evaluates `_get_results(value, cursor_position)` before the assignment to
`_matches`, so a raise leaves both fields with their prior values and the
exception propagates to the caller.  The result pairs the widget state
after the call with the propagated outcome. -/
def syncStateExc (f : String → Int → Except String (List Candidate))
    (st : WidgetState) (v : String) (c : Int) :
    WidgetState × Except String Unit :=
  match f v c with
  | .error e => (st, .error e)
  | .ok ms =>
    ({ matchList := ms, display := decide (ms.length > 0) && decide (v ≠ "") },
      .ok ())

/-- What a successful `AutoComplete.on_mount` leaves behind: the installed
watch subscriptions (attribute names, in installation order), the syncs
performed, and the widget state after the initial sync. -/
structure MountOutcome where
  watches : List String
  syncs : List (String × Int)
  widget : WidgetState
deriving DecidableEq, Repr

/-- The message of the `AutoCompleteError` raised by `on_mount` when the
screen lacks the required layer. -/
def autoCompleteLayerError : String :=
  "Screen must have a layer called `textual-autocomplete`."

/-- Embeds `AutoComplete.on_mount` after the input reference is resolved:
if `"textual-autocomplete"` is not among the screen's layers it raises
`AutoCompleteError` — before any `watch(...)` call and before the initial
`_sync_state` — otherwise it installs the `cursor_position` and `value`
watches and performs one `_sync_state(input.value, input.cursor_position)`. -/
def on_mount (layers : List String) (inp : InputState)
    (f : String → Int → List Candidate) : Except String MountOutcome :=
  if "textual-autocomplete" ∈ layers then
    .ok { watches := ["cursor_position", "value"]
          syncs := [(inp.value, inp.cursor_position)]
          widget := syncState f inp.value inp.cursor_position }
  else
    .error autoCompleteLayerError

/-- A word occurs at index `i` of `s` when it is a prefix of `s.drop i`. -/
def occursAt (word s : List Char) (i : Nat) : Prop :=
  word.isPrefixOf (s.drop i)

instance (word s : List Char) (i : Nat) : Decidable (occursAt word s i) :=
  inferInstanceAs (Decidable (word.isPrefixOf (s.drop i)))

/-- The fold in `__rich_measure__` computes the maximum combined width. -/
theorem foldl_max_eq_maxCombined (l : List Candidate) (a : Nat) :
    l.foldl (fun mx c => max (combinedWidth c) mx) a = max a (maxCombined l) := by
  induction l generalizing a with
  | nil => simp [maxCombined]
  | cons c cs ih =>
    simp only [List.foldl_cons, maxCombined, ih]
    omega

/-- A sync sequence ending in `(v, c)` leaves exactly the state of a single
`_sync_state(v, c)`. -/
theorem runSyncs_append_last (f : String → Int → List Candidate)
    (st : WidgetState) (pre : List (String × Int)) (v : String) (c : Int) :
    runSyncs f st (pre ++ [(v, c)]) = syncState f v c := by
  induction pre generalizing st with
  | nil => rfl
  | cons p rest ih =>
    cases p with
    | mk pv pc => simpa [runSyncs] using ih (syncState f pv pc)

/-- Soundness of the highlight scan: every produced span is an exact
occurrence of the (non-empty) word, of the word's length. -/
theorem findSpans_sound (word : List Char) :
    ∀ (s : List Char) (i skip : Nat) (sp : Nat × Nat),
      sp ∈ findSpans word s i skip →
      word ≠ [] ∧ sp.2 = sp.1 + word.length ∧
        ∃ j, i + j = sp.1 ∧ word.isPrefixOf (s.drop j) := by
  intro s
  induction s with
  | nil => intro i skip sp h; simp [findSpans] at h
  | cons c rest ih =>
    intro i skip sp h
    cases skip with
    | succ k =>
      have hmem : sp ∈ findSpans word rest (i + 1) k := by
        simpa [findSpans] using h
      obtain ⟨hw, he, j, hj, hpre⟩ := ih (i + 1) k sp hmem
      refine ⟨hw, he, j + 1, by omega, ?_⟩
      rw [List.drop_succ_cons]
      exact hpre
    | zero =>
      by_cases hc : word ≠ [] ∧ word.isPrefixOf (c :: rest)
      · rw [findSpans, if_pos hc] at h
        rcases List.mem_cons.mp h with hsp | hmem
        · subst hsp
          exact ⟨hc.1, rfl, 0, by omega, by simpa using hc.2⟩
        · obtain ⟨hw, he, j, hj, hpre⟩ := ih (i + 1) (word.length - 1) sp hmem
          refine ⟨hw, he, j + 1, by omega, ?_⟩
          rw [List.drop_succ_cons]
          exact hpre
      · rw [findSpans, if_neg hc] at h
        obtain ⟨hw, he, j, hj, hpre⟩ := ih (i + 1) 0 sp h
        refine ⟨hw, he, j + 1, by omega, ?_⟩
        rw [List.drop_succ_cons]
        exact hpre

/-- Completeness of the highlight scan: every occurrence of the word that
starts at or beyond the skip region starts inside some produced span. -/
theorem findSpans_covers (word : List Char) (hw : word ≠ []) :
    ∀ (s : List Char) (i skip j : Nat), skip ≤ j →
      word.isPrefixOf (s.drop j) →
      ∃ sp ∈ findSpans word s i skip, sp.1 ≤ i + j ∧ i + j < sp.2 := by
  intro s
  induction s with
  | nil =>
    intro i skip j _ hpre
    rw [List.drop_nil] at hpre
    cases word with
    | nil => exact absurd rfl hw
    | cons a w => simp [List.isPrefixOf] at hpre
  | cons c rest ih =>
    intro i skip j hskip hpre
    cases skip with
    | succ k =>
      cases j with
      | zero => exact absurd hskip (by omega)
      | succ j1 =>
        rw [List.drop_succ_cons] at hpre
        obtain ⟨sp, hmem, h1, h2⟩ :=
          ih (i + 1) k j1 (Nat.le_of_succ_le_succ hskip) hpre
        exact ⟨sp, by simpa [findSpans] using hmem, by omega, by omega⟩
    | zero =>
      by_cases hm : word.isPrefixOf (c :: rest)
      · have hc : word ≠ [] ∧ word.isPrefixOf (c :: rest) := ⟨hw, hm⟩
        have hpos : 0 < word.length := List.length_pos.mpr hw
        cases j with
        | zero =>
          refine ⟨(i, i + word.length), ?_, by omega, by omega⟩
          rw [findSpans, if_pos hc]
          exact List.mem_cons_self _ _
        | succ j1 =>
          rw [List.drop_succ_cons] at hpre
          by_cases hj : word.length - 1 ≤ j1
          · obtain ⟨sp, hmem, h1, h2⟩ := ih (i + 1) (word.length - 1) j1 hj hpre
            refine ⟨sp, ?_, by omega, by omega⟩
            rw [findSpans, if_pos hc]
            exact List.mem_cons_of_mem _ hmem
          · refine ⟨(i, i + word.length), ?_, by omega, by omega⟩
            rw [findSpans, if_pos hc]
            exact List.mem_cons_self _ _
      · have hc : ¬ (word ≠ [] ∧ word.isPrefixOf (c :: rest)) := by
          intro h; exact hm h.2
        cases j with
        | zero => exact absurd (by simpa using hpre) hm
        | succ j1 =>
          rw [List.drop_succ_cons] at hpre
          obtain ⟨sp, hmem, h1, h2⟩ := ih (i + 1) 0 j1 (Nat.zero_le _) hpre
          refine ⟨sp, ?_, by omega, by omega⟩
          rw [findSpans, if_neg hc]
          exact hmem

/-- C1: after every `_sync_state(text, cursor)`, the widget's `display`
flag is true iff the provider returned a non-empty match list and the
synced text is non-empty; so a sync with text `""` hides the dropdown
whatever the provider returns, and a sync with zero matches hides it
whatever the text. -/
theorem C1_visibility_iff_matches_and_filter
    (f : String → Int → List Candidate) (v : String) (c : Int) :
    (syncState f v c).display = true ↔ (f v c ≠ [] ∧ v ≠ "") := by
  simp [syncState, List.length_pos]

/-- C2 evaluated at the failing input: for a candidate with main `"hello"`
and explicit `highlight_ranges = [(0, 1)]` under filter `"lo"`, the
renderer emits exactly the substring-search span `[3, 5)` and ignores the
explicit range; the rendered line is identical to that of the same
candidate without any explicit ranges. -/
theorem C2_highlight_ranges_ignored :
    (renderLine "lo" { main := "hello", highlight_ranges := [(0, 1)] }).spans =
      [{ start := 3, stop := 5, style := "on yellow" }] ∧
    renderLine "lo" { main := "hello", highlight_ranges := [(0, 1)] } =
      renderLine "lo" { main := "hello" } := by
  exact ⟨rfl, rfl⟩

/-- C3 as stated is false: with filter `"aa"` and main `"aaa"`, the
occurrence of `"aa"` at index 1 is not fully highlighted (position 2 is
covered by no span), because the scan is non-overlapping. -/
theorem C3_counterexample_overlapping_occurrence :
    ¬ (∀ j, occursAt "aa".data "aaa".data j →
        ∀ p, j ≤ p → p < j + "aa".length →
          ∃ sp ∈ (renderLine "aa" { main := "aaa" }).spans,
            sp.start ≤ p ∧ p < sp.stop) := by
  intro h
  have h2 := h 1 (by decide) 2 (by decide) (by decide)
  revert h2
  decide

/-- C3 (amended): for every non-empty filter `f` and candidate `c`, every
span of the rendered line is an exact, `"on yellow"`-styled occurrence of
`f` in `c.main`, and every occurrence of `f` in `c.main` starts inside
some highlighted span; occurrences are found by a left-to-right
non-overlapping scan, so an occurrence overlapping an earlier match may
not be covered beyond its start. -/
theorem C3_all_scan_occurrences_highlighted (f : String) (c : Candidate)
    (hf : f ≠ "") :
    (∀ sp ∈ (renderLine f c).spans,
        sp.style = "on yellow" ∧ sp.stop = sp.start + f.length ∧
        occursAt f.data c.main.data sp.start) ∧
    (∀ j, occursAt f.data c.main.data j →
        ∃ sp ∈ (renderLine f c).spans, sp.start ≤ j ∧ j < sp.stop) := by
  have hfd : f.data ≠ [] := by
    intro h
    exact hf (by cases f; simp_all)
  constructor
  · intro sp hsp
    simp only [renderLine, List.mem_map] at hsp
    obtain ⟨p, hp, rfl⟩ := hsp
    obtain ⟨hw, he, j, hj, hpre⟩ := findSpans_sound f.data c.main.data 0 0 p hp
    refine ⟨rfl, ?_, ?_⟩
    · exact he
    · simpa [occursAt, ← hj] using hpre
  · intro j hj
    obtain ⟨p, hp, h1, h2⟩ :=
      findSpans_covers f.data hfd c.main.data 0 0 j (Nat.zero_le _) hj
    refine ⟨{ start := p.1, stop := p.2, style := "on yellow" }, ?_, ?_, ?_⟩
    · simp only [renderLine, List.mem_map]
      exact ⟨p, hp, rfl⟩
    · show p.1 ≤ j
      omega
    · show j < p.2
      omega

/-- Witness for C3 (amended) at the spec's own example: filter `"hel"`
over candidate main `"hello"`. -/
theorem C3_all_scan_occurrences_highlighted_witness :
    (∀ sp ∈ (renderLine "hel" { main := "hello" }).spans,
        sp.style = "on yellow" ∧ sp.stop = sp.start + "hel".length ∧
        occursAt "hel".data "hello".data sp.start) ∧
    (∀ j, occursAt "hel".data "hello".data j →
        ∃ sp ∈ (renderLine "hel" { main := "hello" }).spans,
          sp.start ≤ j ∧ j < sp.stop) :=
  C3_all_scan_occurrences_highlighted "hel" { main := "hello" } (by decide)

/-- C4: the measurement reported by `__rich_measure__` has minimum exactly
the 10-column floor, and resolves to `max 10 w` where `w` is the maximum
combined three-column width over the matches; in particular it is ≥ 10,
and equals `w` whenever `w` exceeds the floor. -/
theorem C4_measured_width_floor_and_max (d : DropdownRender) :
    (richMeasure d).minimum = 10 ∧
    measuredWidth d = max 10 (maxCombined d.matchList) ∧
    10 ≤ measuredWidth d := by
  refine ⟨rfl, ?_, ?_⟩
  · simp only [measuredWidth, richMeasure, foldl_max_eq_maxCombined]
    omega
  · simp only [measuredWidth, richMeasure]
    omega

/-- C5 evaluated at the failing input: the rendered block for a candidate
with non-empty `left_meta` and `right_meta` is just its `main` text — the
meta columns appear nowhere, and the output is unchanged when they are
emptied. -/
theorem C5_meta_columns_not_rendered :
    richConsolePlain
      { filter := "app",
        matchList := [{ main := "apple", left_meta := "x", right_meta := "fruit" }],
        highlight_index := 0 } = "apple\n" ∧
    renderLines
      { filter := "app",
        matchList := [{ main := "apple", left_meta := "x", right_meta := "fruit" }],
        highlight_index := 0 } =
      renderLines
        { filter := "app", matchList := [{ main := "apple" }],
          highlight_index := 0 } := by
  exact ⟨rfl, rfl⟩

/-- C6: a `_sync_state(v, c)` call invokes the provider exactly once, with
`(v, c)`; the new `_matches` is exactly the returned list; after any sync
sequence ending with `(v, c)` the matches are exactly the provider's last
return; and after a value-change notification the state rendered uses the
new value as the filter and the provider's fresh result as the matches. -/
theorem C6_single_call_exact_replacement
    (f : String → Int → List Candidate) (st : WidgetState)
    (v : String) (c : Int) (pre : List (String × Int))
    (inp : InputState) (w : WidgetState) :
    (syncTraced f v c).2 = [(v, c)] ∧
    (syncTraced f v c).1.matchList = f v c ∧
    (runSyncs f st (pre ++ [(v, c)])).matchList = f v c ∧
    ((applyEvent f inp w (.valueChanged v)).2.matchList = f v inp.cursor_position ∧
      (render (applyEvent f inp w (.valueChanged v)).1
        (applyEvent f inp w (.valueChanged v)).2).filter = v) := by
  refine ⟨rfl, rfl, ?_, rfl, rfl⟩
  rw [runSyncs_append_last]
  rfl

/-- C7: if the provider raises during `_sync_state`, the error propagates
to the caller and the widget state (matches and display flag) is exactly
its pre-call value. -/
theorem C7_provider_error_propagates
    (f : String → Int → Except String (List Candidate))
    (st : WidgetState) (v : String) (c : Int) (e : String)
    (h : f v c = .error e) :
    syncStateExc f st v c = (st, .error e) := by
  simp [syncStateExc, h]

/-- Witness for C7: a provider that raises `"boom"` leaves the prior
matches and display flag untouched and surfaces the error. -/
theorem C7_provider_error_propagates_witness :
    syncStateExc (fun _ _ => .error "boom")
      { matchList := [{ main := "old" }], display := true } "x" 0 =
      ({ matchList := [{ main := "old" }], display := true }, .error "boom") :=
  C7_provider_error_propagates _ _ _ _ _ rfl

/-- C8: when the screen's layers do not include `textual-autocomplete`,
`on_mount` raises `AutoCompleteError`; the error outcome carries no
installed watches and no performed sync. -/
theorem C8_missing_layer_is_fatal (layers : List String) (inp : InputState)
    (f : String → Int → List Candidate)
    (h : "textual-autocomplete" ∉ layers) :
    on_mount layers inp f = .error autoCompleteLayerError := by
  simp [on_mount, h]

/-- Witness for C8: mounting over a screen with only a `"base"` layer
fails with the layer error. -/
theorem C8_missing_layer_is_fatal_witness :
    on_mount ["base"] { value := "a", cursor_position := 1 } (fun _ _ => []) =
      .error autoCompleteLayerError :=
  C8_missing_layer_is_fatal _ _ _ (by decide)

/-- C9: when the layer is present, `on_mount` installs the two watches and
performs exactly one initial sync with the linked input's current value
and cursor position, leaving the widget in the state of that sync. -/
theorem C9_mount_initial_sync (layers : List String) (inp : InputState)
    (f : String → Int → List Candidate)
    (h : "textual-autocomplete" ∈ layers) :
    on_mount layers inp f =
      .ok { watches := ["cursor_position", "value"],
            syncs := [(inp.value, inp.cursor_position)],
            widget := syncState f inp.value inp.cursor_position } := by
  simp [on_mount, h]

/-- Witness for C9 at the spec's scenario: input `"hel"` at cursor 3 with
a provider returning `hello` and `help` mounts into exactly those two
matches with the dropdown visible. -/
theorem C9_mount_initial_sync_witness :
    on_mount ["textual-autocomplete"] { value := "hel", cursor_position := 3 }
      (fun _ _ => [{ main := "hello" }, { main := "help" }]) =
      .ok { watches := ["cursor_position", "value"],
            syncs := [("hel", 3)],
            widget := { matchList := [{ main := "hello" }, { main := "help" }],
                        display := true } } := by
  rw [C9_mount_initial_sync _ _ _ (by decide)]
  rfl

/-- C10: two `DropdownRender` values agreeing on `filter` and on the
matches produce identical rendered lines, identical joined plain output
and identical measurement whatever their `highlight_index`; and
`AutoComplete.render` always passes `highlight_index = 0`. -/
theorem C10_highlight_index_has_no_effect (d1 d2 : DropdownRender)
    (inp : InputState) (w : WidgetState)
    (hf : d1.filter = d2.filter) (hm : d1.matchList = d2.matchList) :
    renderLines d1 = renderLines d2 ∧
    richConsolePlain d1 = richConsolePlain d2 ∧
    richMeasure d1 = richMeasure d2 ∧
    (render inp w).highlight_index = 0 := by
  refine ⟨?_, ?_, ?_, rfl⟩
  · simp [renderLines, hf, hm]
  · simp [richConsolePlain, renderLines, hf, hm]
  · simp [richMeasure, hm]

/-- Witness for C10: two renders over the same filter and match but with
highlight indices 0 and 7 agree on lines, plain output and measurement. -/
theorem C10_highlight_index_has_no_effect_witness :
    renderLines
      { filter := "ab", matchList := [{ main := "abc" }], highlight_index := 0 } =
      renderLines
        { filter := "ab", matchList := [{ main := "abc" }], highlight_index := 7 } ∧
    richConsolePlain
      { filter := "ab", matchList := [{ main := "abc" }], highlight_index := 0 } =
      richConsolePlain
        { filter := "ab", matchList := [{ main := "abc" }], highlight_index := 7 } ∧
    richMeasure
      { filter := "ab", matchList := [{ main := "abc" }], highlight_index := 0 } =
      richMeasure
        { filter := "ab", matchList := [{ main := "abc" }], highlight_index := 7 } ∧
    (render { value := "ab", cursor_position := 2 }
      { matchList := [{ main := "abc" }], display := true }).highlight_index = 0 :=
  C10_highlight_index_has_no_effect _ _ _ _ rfl rfl

end TextualAutocomplete
